import Mathlib

/-!
Verification of the sayses-ios core voice engine (C++ sources under Core/).

Shallow embedding conventions:
- machine bytes are `Nat` values kept below 256 by explicit `% 256`;
- `uint32_t` counters are `Nat` with explicit `% 2^32` where the source wraps;
- `int64_t` / `int` sequence numbers are `Int`;
- C `float` samples are modelled as exact rationals `ℚ`; every concrete value
  evaluated by a theorem below (`s / 32768`, sums of `1.0`, `0.5 * 32767`) is a
  dyadic rational that IEEE-754 single precision represents exactly, so the
  rational model agrees with the C code at those inputs;
- the external OpenSSL primitive `AES_encrypt` (a collaborator outside the
  repository) is an oracle parameter `aes : List Nat → List Nat` giving the
  block cipher under the session key; two states "share a key" when they carry
  the same oracle;
- caller-supplied output arrays are `List` values threaded in and out, so that
  "the callee never wrote this cell" is visible as the cell keeping its input
  value;
- mutexes, wall-clock timestamps and thread scheduling are outside the
  embedding: every modelled operation is the body of one critical section.
-/

set_option maxRecDepth 100000
set_option maxHeartbeats 2000000

namespace Sayses

-- Core Lean marks the `Rat` field operations `@[irreducible]`, which blocks
-- the definitional evaluation that `decide`/`rfl` use on the concrete sample
-- buffers below; restore the default reducibility for this development.
attribute [local semireducible] Rat.mul Rat.add Rat.sub Rat.inv

/-! ### Crypto (Core/src/mumble/crypto.cpp) -/

/-- Byte-wise xor of two 16-byte blocks (`CryptState::xorBlock`). -/
def xorBlock (a b : List Nat) : List Nat :=
  List.zipWith (fun x y => x ^^^ y) a b

/-- The all-zero 16-byte block. -/
def zeroBlock : List Nat := List.replicate 16 0

/-- Doubling in GF(2^128) with reduction polynomial 0x87
(`CryptState::shift`); stores through `uint8_t`, hence the `% 256`. -/
def shiftBlock (src : List Nat) : List Nat :=
  ((List.range 15).map fun i =>
    ((src.getD i 0 <<< 1) ||| (src.getD (i + 1) 0 >>> 7)) % 256)
  ++ [((src.getD 15 0 <<< 1) ^^^ (if src.getD 0 0 >>> 7 = 1 then 0x87 else 0)) % 256]

/-- OCB inner loop of `CryptState::ocbEncrypt`: processes full 16-byte blocks,
then a trailing short block.  Returns (ciphertext, final offset, checksum).
The three match arms are, in order: a full leading block, the empty tail, and
a trailing short block of 1..15 bytes. -/
def ocbBlocks (aes : List Nat → List Nat) (L : List Nat) :
    List Nat → List Nat → List Nat → List Nat × List Nat × List Nat
  | b0 :: b1 :: b2 :: b3 :: b4 :: b5 :: b6 :: b7 ::
    b8 :: b9 :: b10 :: b11 :: b12 :: b13 :: b14 :: b15 :: rest,
    offset, checksum =>
      let block := [b0, b1, b2, b3, b4, b5, b6, b7, b8, b9, b10, b11, b12, b13, b14, b15]
      let offset1 := xorBlock offset L
      let c := xorBlock (aes (xorBlock block offset1)) offset1
      let checksum1 := xorBlock checksum block
      let r := ocbBlocks aes L rest offset1 checksum1
      (c ++ r.1, r.2)
  | [], offset, checksum => ([], offset, checksum)
  | lastBlock, offset, checksum =>
      let offset1 := shiftBlock offset
      let pad := aes offset1
      let c := List.zipWith (fun p q => p ^^^ q) lastBlock pad
      let cs1 := xorBlock checksum (lastBlock ++ List.replicate (16 - lastBlock.length) 0)
      let cs2 := cs1.set lastBlock.length (cs1.getD lastBlock.length 0 ^^^ 0x80)
      (c, offset1, cs2)

/-- `CryptState::ocbEncrypt`: offset starts as `E_K(nonce)`, checksum as zero;
the tag is `E_K(checksum XOR offset)`.  Returns (ciphertext, 16-byte tag). -/
def ocbSeal (aes : List Nat → List Nat) (L plain nonce : List Nat) :
    List Nat × List Nat :=
  let r := ocbBlocks aes L plain (aes nonce) zeroBlock
  (r.1, aes (xorBlock r.2.2 r.2.1))

/-- OCB-AES128 state (`CryptState`).  `aes` is the external `AES_encrypt`
oracle under the session key; `L = E_K(0^128)` as computed by
`generateSubkeys`.  `initDone` mirrors `initialized_`. -/
structure CryptState where
  aes : List Nat → List Nat
  clientNonce : List Nat
  serverNonce : List Nat
  L : List Nat
  encryptNonce : Nat
  decryptNonce : Nat
  needResync : Bool
  initDone : Bool

/-- `CryptState::init`: stores the nonces, derives `L = E_K(0)`, zeroes both
counters and clears `needResync`.  `AES_set_encrypt_key` is the external
primitive that builds the oracle; its failure path is not modelled. -/
def cryptInit (aes : List Nat → List Nat) (clientNonce serverNonce : List Nat) :
    CryptState :=
  { aes := aes, clientNonce := clientNonce, serverNonce := serverNonce,
    L := aes zeroBlock, encryptNonce := 0, decryptNonce := 0,
    needResync := false, initDone := true }

/-- Overwrite bytes 0..3 of a nonce with the little-endian counter
(`nonce[0..3] = (uint8)(ctr >> 8i)`). -/
def setCtr (nonce : List Nat) (ctr : Nat) : List Nat :=
  ctr % 256 :: (ctr >>> 8) % 256 :: (ctr >>> 16) % 256 :: (ctr >>> 24) % 256
    :: nonce.drop 4

/-- `CryptState::encrypt`: bump `encryptNonce_` (uint32), build the nonce from
`clientNonce_`, OCB-seal, and emit `[ctr_lsb | tag[0..3) | ciphertext]`.
Returns `none` when not initialized (the C++ `return false`). -/
def encrypt (s : CryptState) (src : List Nat) : Option (List Nat × CryptState) :=
  if s.initDone = false then none
  else
    let ctr := (s.encryptNonce + 1) % 2 ^ 32
    let nonce := setCtr s.clientNonce ctr
    let r := ocbSeal s.aes s.L src nonce
    some (nonce.getD 0 0 :: r.2.take 3 ++ r.1, { s with encryptNonce := ctr })

/-- Signed reinterpretation of a byte: `static_cast<int8_t>`. -/
def signedI8 (n : Nat) : Int :=
  if n % 256 < 128 then (n % 256 : Nat) else (n % 256 : Int) - 256

/-- Counter prediction in `CryptState::decrypt`:
`predicted = decryptNonce_ + (int8_t)(src[0] - (uint8_t)decryptNonce_)`,
wrapped to uint32. -/
def decPredict (s : CryptState) (nonceByte : Nat) : Nat :=
  let d := signedI8 ((((nonceByte : Int) - ((s.decryptNonce % 256 : Nat) : Int)) % 256).toNat)
  (((s.decryptNonce : Int) + d) % (2 ^ 32 : Int)).toNat

/-- The 16-byte tag computed inside `CryptState::decrypt`.  Faithful to the
source's `ocbEncrypt(dst, const_cast<uint8_t*>(src + 4), plainLen, nonce,
expectedTag)`: the PLAINTEXT argument is the caller's output buffer `dst`
(its first `srcLen - 4` stale bytes) and the ciphertext produced is written
over `src + 4` and discarded; the tag therefore depends on `dst`'s prior
contents and on `src` only through `src[0]` and its length. -/
def decExpectedTag (s : CryptState) (dst src : List Nat) : List Nat :=
  (ocbSeal s.aes s.L (dst.take (src.length - 4))
    (setCtr s.serverNonce (decPredict s (src.getD 0 0)))).2

/-- The tag comparison of `CryptState::decrypt` (the negation of
`expectedTag[0] != src[1] || expectedTag[1] != src[2] || expectedTag[2] != src[3]`). -/
def tagMatches (tag src : List Nat) : Bool :=
  (tag.getD 0 0 == src.getD 1 0) && (tag.getD 1 0 == src.getD 2 0)
    && (tag.getD 2 0 == src.getD 3 0)

/-- `CryptState::decrypt`.  Returns (success, final contents of the caller's
`dst` buffer, new state).  No branch of the source ever stores to `dst`
(see `decExpectedTag`), so the middle component is always the input `dst`.
On tag mismatch `needResync_` is set and the counter is left alone; on match
`decryptNonce_ = predicted + 1` (uint32). -/
def decrypt (s : CryptState) (dst src : List Nat) : Bool × List Nat × CryptState :=
  if s.initDone = false ∨ src.length < 4 then (false, dst, s)
  else if tagMatches (decExpectedTag s dst src) src then
    (true, dst, { s with decryptNonce := (decPredict s (src.getD 0 0) + 1) % 2 ^ 32 })
  else
    (false, dst, { s with needResync := true })

/-- Identity block-cipher oracle used to evaluate concrete crypto runs; the
structural facts proved below hold for every oracle. -/
def idealAes : List Nat → List Nat := fun b => b

/-- Concrete sending state: key oracle `idealAes`, client nonce all-zero,
server nonce all-5. -/
def cstateA : CryptState := cryptInit idealAes zeroBlock (List.replicate 16 5)

/-- Concrete receiving state mirroring `cstateA`'s nonces. -/
def cstateB : CryptState := cryptInit idealAes (List.replicate 16 5) zeroBlock

/-- The packet produced by `cstateA` sealing the 1-byte plaintext `[0x01]`. -/
def packetOne : List Nat :=
  match encrypt cstateA [1] with
  | some r => r.1
  | none => []

/-- The 0-length-payload packet produced by `cstateA` sealing `[]`. -/
def packetNil : List Nat :=
  match encrypt cstateA [] with
  | some r => r.1
  | none => []

/-- The sender state after `cstateA` sealed the 1-byte plaintext `[0x01]`. -/
def cstateAAfterOne : CryptState :=
  match encrypt cstateA [1] with
  | some r => r.2
  | none => cstateA

/-! ### UserAudioBuffer, Crossfade, FloatMixer
(Core/src/audio/user_audio_buffer.cpp, Core/include/user_audio_buffer.h) -/

/-- `UserAudioBuffer::Config` with the header's defaults. -/
structure UABConfig where
  sampleRate : Nat := 48000
  frameSize : Nat := 480
  minBufferMs : Nat := 60
  maxBufferMs : Nat := 200
  targetBufferMs : Nat := 80

/-- `UserAudioBuffer::Stats` (the wall-clock `maxGapMs` field is outside the
embedding and omitted). -/
structure UABStats where
  packetsReceived : Nat := 0
  packetsDecoded : Nat := 0
  sequenceGaps : Nat := 0
  plcFrames : Nat := 0
  bufferUnderruns : Nat := 0
  bufferOverruns : Nat := 0
  fadeIns : Nat := 0
  fadeOuts : Nat := 0
  lastSequence : Int := -1
  currentBufferSize : Nat := 0
deriving DecidableEq

/-- `CrossfadeImpl`: the constructor computes `fadeIn_[i] = sin(i·π/(2F))` and
`fadeOut_[i] = sin((F−i−1)·π/(2F))` — transcendental reals produced outside
the rational sample model, so the tables are carried as data here.  No theorem
below evaluates a table entry. -/
structure Crossfade where
  fadeLength : Nat
  fadeIn : List ℚ
  fadeOut : List ℚ

/-- Overwrite `l[i]` for `i = start, .., start + vals.length - 1` with `vals`,
leaving every other cell alone (a C write loop over a caller's buffer). -/
def writeRange (l : List ℚ) (start : Nat) (vals : List ℚ) : List ℚ :=
  match vals with
  | [] => l
  | v :: vs => writeRange (l.set start v) (start + 1) vs

/-- Map `f` over a list with indices counted from `i` (a C loop
`for (j = 0; ...) a[j] = f(i + j, a[j])`). -/
def mapIdxFrom {α : Type} (f : Nat → α → α) : Nat → List α → List α
  | _, [] => []
  | i, v :: vs => f i v :: mapIdxFrom f (i + 1) vs

/-- `CrossfadeImpl::applyFadeIn`: scale the first `min frames fadeLength`
samples by the fade-in table; cells past that are untouched. -/
def applyFadeIn (cf : Crossfade) (samples : List ℚ) (frames : Nat) : List ℚ :=
  let applyFrames := min frames cf.fadeLength
  mapIdxFrom (fun i v => if i < applyFrames then v * cf.fadeIn.getD i 0 else v) 0 samples

/-- `CrossfadeImpl::applyFadeOut`: scale `samples[startIdx + i]` by
`fadeOut[fadeLength - applyFrames + i]` for `i < applyFrames`, where
`startIdx = frames - applyFrames`; cells outside `[startIdx, frames)` are
untouched. -/
def applyFadeOut (cf : Crossfade) (samples : List ℚ) (frames : Nat) : List ℚ :=
  let applyFrames := min frames cf.fadeLength
  let startIdx := frames - applyFrames
  mapIdxFrom (fun j v =>
    if startIdx ≤ j ∧ j < frames then
      v * cf.fadeOut.getD (cf.fadeLength - applyFrames + (j - startIdx)) 0
    else v) 0 samples

/-- `UserAudioBufferImpl` state (mutex and `lastPacketTime_` omitted; the
stats it guards are here). -/
structure UABState where
  userId : Nat
  config : UABConfig
  crossfade : Crossfade
  buffer : List ℚ
  minBufferSize : Nat
  maxBufferSize : Nat
  lastSequence : Int
  sequenceIncrement : Int
  playbackStarted : Bool
  needsFadeIn : Bool
  needsFadeOut : Bool
  stats : UABStats

/-- `UserAudioBufferImpl` constructor: derives the min/max sizes in samples
from the config and starts with an empty ring. -/
def mkUserAudioBuffer (userId : Nat) (config : UABConfig) (cf : Crossfade) :
    UABState :=
  { userId := userId, config := config, crossfade := cf, buffer := [],
    minBufferSize := config.minBufferMs * config.sampleRate / 1000,
    maxBufferSize := config.maxBufferMs * config.sampleRate / 1000,
    lastSequence := -1, sequenceIncrement := 1,
    playbackStarted := false, needsFadeIn := true, needsFadeOut := false,
    stats := {} }

/-- `UserAudioBufferImpl::detectSequenceGap`: returns the new
(`sequenceGaps`, `sequenceIncrement`) pair.  Gaps are counted only when
`gap > sequenceIncrement_`; a gap in `(0, 100)` is adopted as the new
increment. -/
def detectSequenceGap (s : UABState) (sequence : Int) : Nat × Int :=
  if s.lastSequence < 0 then (s.stats.sequenceGaps, s.sequenceIncrement)
  else if sequence ≠ s.lastSequence + s.sequenceIncrement then
    let gap := sequence - s.lastSequence
    (if gap > s.sequenceIncrement then s.stats.sequenceGaps + 1 else s.stats.sequenceGaps,
     if 0 < gap ∧ gap < 100 then gap else s.sequenceIncrement)
  else (s.stats.sequenceGaps, s.sequenceIncrement)

/-- The overflow loop of `addSamples`:
`while (buffer_.size() > maxBufferSize_) { buffer_.pop_front(); stats_.bufferOverruns++; }`. -/
def evictLoop (buf : List ℚ) (maxSize : Nat) (overruns : Nat) : List ℚ × Nat :=
  match buf with
  | [] => ([], overruns)
  | a :: rest =>
    if rest.length + 1 > maxSize then evictLoop rest maxSize (overruns + 1)
    else (a :: rest, overruns)

/-- `UserAudioBufferImpl::addSamples`: gap detection, stats update, int16 →
float conversion (`s / 32768`, exact for these dyadics), append, overflow
eviction. -/
def addSamples (s : UABState) (samples : List Int) (sequence : Int) (isPLC : Bool) :
    UABState :=
  let g := detectSequenceGap s sequence
  let stats1 : UABStats :=
    { s.stats with
      sequenceGaps := g.1
      packetsReceived := s.stats.packetsReceived + 1
      plcFrames := if isPLC then s.stats.plcFrames + 1 else s.stats.plcFrames
      packetsDecoded := if isPLC then s.stats.packetsDecoded else s.stats.packetsDecoded + 1
      lastSequence := sequence }
  let buf1 := s.buffer ++ samples.map (fun (v : Int) => (v : ℚ) / 32768)
  let e := evictLoop buf1 s.maxBufferSize stats1.bufferOverruns
  { s with
    sequenceIncrement := g.2
    lastSequence := sequence
    buffer := e.1
    stats := { stats1 with bufferOverruns := e.2, currentBufferSize := e.1.length } }

/-- `UserAudioBufferImpl::readFloat`.  `out` is the caller's float buffer; the
requested frame count is `out.length`.  Returns (frames read, final buffer
contents, new state), mirroring the four paths of the source: not-started
silence, underrun silence, and the normal read with zero padding, fade-in and
fade-out. -/
def readFloat (s : UABState) (out : List ℚ) : Nat × List ℚ × UABState :=
  let frames := out.length
  if s.playbackStarted = false ∧ s.buffer.length < s.minBufferSize then
    (0, List.replicate frames 0, s)
  else
    let s1 := if s.playbackStarted then s
      else { s with playbackStarted := true, needsFadeIn := true }
    if s1.buffer.isEmpty then
      (0, List.replicate frames 0,
        { s1 with playbackStarted := false, needsFadeIn := true,
                  stats := { s1.stats with bufferUnderruns := s1.stats.bufferUnderruns + 1 } })
    else
      let readFrames := min frames s1.buffer.length
      let popped := s1.buffer.take readFrames
      let buf1 := s1.buffer.drop readFrames
      let out1 := writeRange out 0 popped
      let out2 := if readFrames < frames then
          writeRange out1 readFrames (List.replicate (frames - readFrames) 0)
        else out1
      -- fade-in block; the fade-out condition below reads `needsFadeOut_`,
      -- which this block does not write, hence `s1.needsFadeOut` there
      let out3 := if s1.needsFadeIn then applyFadeIn s1.crossfade out2 readFrames
        else out2
      let s2 := if s1.needsFadeIn then
          { s1 with needsFadeIn := false,
                    stats := { s1.stats with fadeIns := s1.stats.fadeIns + 1 } }
        else s1
      let out4 := if s1.needsFadeOut ∧ buf1.isEmpty then
          applyFadeOut s1.crossfade out3 readFrames
        else out3
      let s3 := if s1.needsFadeOut ∧ buf1.isEmpty then
          { s2 with needsFadeOut := false,
                    stats := { s2.stats with fadeOuts := s2.stats.fadeOuts + 1 } }
        else s2
      (readFrames, out4,
        { s3 with buffer := buf1,
                  stats := { s3.stats with currentBufferSize := buf1.length } })

/-- `UserAudioBufferImpl::notifyTalkingEnded`. -/
def notifyTalkingEnded (s : UABState) : UABState :=
  { s with needsFadeOut := true }

/-- Closed form of the output written by `readFloat`'s normal path (popped
samples, zero padding, fades), as a function of the state and the requested
frame count only; proven equal to the branch below
(`readFloat_normal`) and used to reason about `readFloat` without the
caller's buffer. -/
def readNormalOut (s : UABState) (frames : Nat) : List ℚ :=
  let readFrames := min frames s.buffer.length
  let base := s.buffer.take readFrames ++ List.replicate (frames - readFrames) 0
  let afterIn := if s.needsFadeIn = true ∨ s.playbackStarted = false then
      applyFadeIn s.crossfade base readFrames
    else base
  if s.needsFadeOut = true ∧ (s.buffer.drop readFrames).isEmpty = true then
    applyFadeOut s.crossfade afterIn readFrames
  else afterIn

/-- C-style truncation toward zero of a rational
(`static_cast<int16_t>` applied to an in-range float). -/
def ratTrunc (q : ℚ) : Int := Int.tdiv q.num q.den

/-- The clipping step of `FloatMixerImpl::getMixed`. -/
def clampQ (q : ℚ) : ℚ := if 1 < q then 1 else if q < -1 then -1 else q

/-- One output sample of `FloatMixerImpl::getMixed`:
`static_cast<int16_t>(clamped * 32767.0f)` — truncation, not rounding. -/
def i16OfSample (q : ℚ) : Int := ratTrunc (clampQ q * 32767)

/-- Floor of a rational as an integer (`num` floor-divided by `den`). -/
def ratFloor (q : ℚ) : Int := Int.fdiv q.num q.den

/-- Rounding half away from zero: the `round(x · 32767)` conversion the spec
claims.  Modelled from the spec's words for comparison with `i16OfSample`;
the source uses a truncating cast instead. -/
def specRound (q : ℚ) : Int :=
  if 0 ≤ q then ratFloor (q + 1 / 2) else -ratFloor (-q + 1 / 2)

/-- `FloatMixerImpl` state. -/
structure Mixer where
  frameSize : Nat
  mixBuffer : List ℚ

/-- `FloatMixerImpl` constructor: a zeroed accumulator of `frameSize` floats. -/
def mkMixer (frameSize : Nat) : Mixer :=
  { frameSize := frameSize, mixBuffer := List.replicate frameSize 0 }

/-- `FloatMixerImpl::clear`: `std::fill` of the fixed-size accumulator. -/
def mixerClear (m : Mixer) : Mixer :=
  { m with mixBuffer := List.replicate m.mixBuffer.length 0 }

/-- `FloatMixerImpl::add`: element-wise sum over the first
`min samples.length frameSize` cells. -/
def mixerAdd (m : Mixer) (samples : List ℚ) : Mixer :=
  let addFrames := min samples.length m.frameSize
  { m with mixBuffer :=
      (mapIdxFrom (fun i v => if i < addFrames then v + samples.getD i 0 else v) 0
        m.mixBuffer) }

/-- `FloatMixerImpl::getMixed`: clamp each accumulated float to `[-1, 1]` and
cast to int16; writes the first `min out.length frameSize` cells of the
caller's int16 buffer `out` (requested count = `out.length`). -/
def getMixed (m : Mixer) (out : List Int) : List Int :=
  let outFrames := min out.length m.frameSize
  mapIdxFrom (fun i v => if i < outFrames then i16OfSample (m.mixBuffer.getD i 0) else v)
    0 out

/-! ### Legacy JitterBuffer (Core/src/audio/jitter_buffer.cpp) -/

/-- `JitterBuffer::Config` with the header's defaults. -/
structure JBConfig where
  sampleRate : Nat := 48000
  frameSize : Nat := 480
  minDelayMs : Nat := 20
  maxDelayMs : Nat := 200
  targetDelayMs : Nat := 60

/-- `JitterBufferImpl` state.  `packets_` is a `std::map` keyed by sequence,
modelled as a key-sorted association list; packet payloads are int16 sample
lists (arrival time and the stored timestamp are unused by the behavior). -/
structure JBState where
  config : JBConfig
  packets : List (Nat × List Int)
  nextPlaySequence : Nat
  initDone : Bool
  packetsReceived : Nat
  packetsLost : Nat
  packetsLate : Nat
  packetsReordered : Nat

/-- `JitterBufferImpl` constructor. -/
def mkJB (config : JBConfig) : JBState :=
  { config := config, packets := [], nextPlaySequence := 0, initDone := false,
    packetsReceived := 0, packetsLost := 0, packetsLate := 0, packetsReordered := 0 }

/-- `packets_[sequence] = packet` on the sorted map: insert or replace. -/
def mapInsert (m : List (Nat × List Int)) (k : Nat) (v : List Int) :
    List (Nat × List Int) :=
  match m with
  | [] => [(k, v)]
  | (k1, v1) :: rest =>
    if k < k1 then (k, v) :: (k1, v1) :: rest
    else if k = k1 then (k, v) :: rest
    else (k1, v1) :: mapInsert rest k v

/-- `packets_.find(k)`. -/
def mapFind (m : List (Nat × List Int)) (k : Nat) : Option (List Int) :=
  match m with
  | [] => none
  | (k1, v1) :: rest => if k = k1 then some v1 else mapFind rest k

/-- `packets_.erase(k)`. -/
def mapErase (m : List (Nat × List Int)) (k : Nat) : List (Nat × List Int) :=
  match m with
  | [] => []
  | (k1, v1) :: rest => if k = k1 then rest else (k1, v1) :: mapErase rest k

/-- The cap loop of `put`:
`while (packets_.size() > kMaxPackets) packets_.erase(packets_.begin())`
with `kMaxPackets = 100`. -/
def jbCap (m : List (Nat × List Int)) : List (Nat × List Int) :=
  match m with
  | [] => []
  | p :: rest => if rest.length + 1 > 100 then jbCap rest else p :: rest

/-- `JitterBufferImpl::put`: count the packet, initialize `nextPlaySequence_`
on the first packet, drop late packets, count reordering against the largest
buffered sequence (`rbegin`), store, and cap at 100 packets. -/
def jbPut (s : JBState) (data : List Int) (sequence : Nat) : JBState :=
  let s := { s with packetsReceived := s.packetsReceived + 1 }
  let s := if s.initDone then s
    else { s with nextPlaySequence := sequence, initDone := true }
  if sequence < s.nextPlaySequence then { s with packetsLate := s.packetsLate + 1 }
  else
    let s := match s.packets.getLast? with
      | some lastEntry =>
        if sequence < lastEntry.1 then
          { s with packetsReordered := s.packetsReordered + 1 }
        else s
      | none => s
    { s with packets := jbCap (mapInsert s.packets sequence data) }

/-- `JitterBufferImpl::get`: returns (frames copied, contents of the caller's
output buffer of `frames` int16 cells, new state).  Silence when
uninitialized/empty or when fewer than
`minDelayMs · sampleRate / (frameSize · 1000)` packets are buffered; else play
`nextPlaySequence_` if present, otherwise count a loss, skip forward to the
smallest buffered sequence (counting the skipped range), and play that. -/
def jbGet (s : JBState) (frames : Nat) : Nat × List Int × JBState :=
  if s.initDone = false ∨ s.packets.isEmpty then
    (0, List.replicate frames 0, s)
  else
    let minPacketsNeeded := s.config.minDelayMs * s.config.sampleRate /
      (s.config.frameSize * 1000)
    if s.packets.length < minPacketsNeeded then
      (0, List.replicate frames 0, s)
    else
      match mapFind s.packets s.nextPlaySequence with
      | some data =>
        let copyFrames := min frames data.length
        (copyFrames, data.take copyFrames ++ List.replicate (frames - copyFrames) 0,
         { s with packets := mapErase s.packets s.nextPlaySequence,
                  nextPlaySequence := s.nextPlaySequence + 1 })
      | none =>
        let s := { s with packetsLost := s.packetsLost + 1 }
        match s.packets.head? with
        | some entry =>
          let s := if s.nextPlaySequence < entry.1 then
              { s with packetsLost := s.packetsLost + (entry.1 - s.nextPlaySequence) - 1,
                       nextPlaySequence := entry.1 }
            else s
          let copyFrames := min frames entry.2.length
          (copyFrames, entry.2.take copyFrames ++ List.replicate (frames - copyFrames) 0,
           { s with packets := mapErase s.packets entry.1,
                    nextPlaySequence := s.nextPlaySequence + 1 })
        | none => (0, List.replicate frames 0, s)

/-! ### MumbleClient connect (Core/src/mumble/mumble_client.cpp) -/

/-- `ConnectionState` from the public header. -/
inductive ConnState where
  | Disconnected
  | Connecting
  | Connected
  | Synchronizing
  | Synchronized
  | Disconnecting
  | Failed
deriving DecidableEq

/-- Outcomes of the external OpenSSL/socket calls made by
`MumbleClientImpl::connect`: `SSL_CTX_new`, `loadCertificate`,
`connectSocket`, `SSL_connect`. -/
structure SslEnv where
  ctxNewOk : Bool
  certLoadOk : Bool
  socketOk : Bool
  handshakeOk : Bool

/-- The connect-relevant part of `MumbleClient::Config`: the client
certificate path as bytes (only emptiness is consulted by `initSSL`). -/
structure MCConfig where
  certificatePath : List Nat := []

/-- `MumbleClientImpl::initSSL`: fails when `SSL_CTX_new` fails, or when a
certificate path is set and `loadCertificate` fails. -/
def initSSL (env : SslEnv) (cfg : MCConfig) : Bool :=
  if env.ctxNewOk = false then false
  else if cfg.certificatePath ≠ [] ∧ env.certLoadOk = false then false
  else true

/-- `MumbleClientImpl::connect` up to the synchronous return: guard on
`Disconnected`, set `Connecting`, then each external failure sets `Failed`
and returns false; on success the state is `Connected` and the reader thread
is started (beyond this model). -/
def connectClient (env : SslEnv) (cfg : MCConfig) (st : ConnState) :
    Bool × ConnState :=
  if st ≠ ConnState.Disconnected then (false, st)
  else if initSSL env cfg = false then (false, ConnState.Failed)
  else if env.socketOk = false then (false, ConnState.Failed)
  else if env.handshakeOk = false then (false, ConnState.Failed)
  else (true, ConnState.Connected)

/-! ### UDP ping loop (Core/src/mumble/udp_ping.cpp) -/

/-- The per-run state of `UdpPing::pingLoop`: the retry counter, the
`udpAvailable_` flag, and counts of `callback_(true, ..)` / `callback_(false, 0)`
invocations. -/
structure PingState where
  retries : Nat
  udpAvailable : Bool
  successCalls : Nat
  failureCalls : Nat
deriving DecidableEq

/-- `kMaxRetries` from the source. -/
def kMaxRetries : Nat := 3

/-- One iteration body of `pingLoop`: `ok` is the result of
`receiveResponse(kPingTimeoutMs)`.  Success sets `udpAvailable_`, reports via
the callback and resets the retry counter; a timeout bumps it. -/
def pingIter (s : PingState) (ok : Bool) : PingState :=
  if ok then
    { s with udpAvailable := true, successCalls := s.successCalls + 1, retries := 0 }
  else { s with retries := s.retries + 1 }

/-- The `while (running_ && retries < kMaxRetries)` loop: `outcomes` is the
finite sequence of `receiveResponse` results observed before `running_` is
cleared (list exhaustion = `stop()`). -/
def pingLoop (outcomes : List Bool) (s : PingState) : PingState :=
  match outcomes with
  | [] => s
  | ok :: rest =>
    if s.retries < kMaxRetries then pingLoop rest (pingIter s ok) else s

/-- One full run of `UdpPing::pingLoop` from the state `start()` resets:
after the loop, `if (retries >= kMaxRetries && !udpAvailable_)` fires the
failure callback once. -/
def pingRun (outcomes : List Bool) : PingState :=
  let s := pingLoop outcomes
    { retries := 0, udpAvailable := false, successCalls := 0, failureCalls := 0 }
  if kMaxRetries ≤ s.retries ∧ s.udpAvailable = false then
    { s with failureCalls := s.failureCalls + 1 }
  else s

/-! ### Concrete scenario states used by the claim evaluations -/

/-- A concrete crossfade table placeholder: the claims settled on the
not-started silence path never consult the tables, so their entries are
irrelevant; the real constructor fills them with sine values. -/
def cfTest : Crossfade :=
  { fadeLength := 480, fadeIn := List.replicate 480 0, fadeOut := List.replicate 480 0 }

/-- A fresh default-config buffer after one `addSamples` of 480 samples of
amplitude 100 at sequence 0 (claim C3's scenario). -/
def uabOnePacket : UABState :=
  addSamples (mkUserAudioBuffer 1 {} cfTest) (List.replicate 480 100) 0 false

/-- The first `readFloat` of 480 frames on `uabOnePacket`. -/
def uabFirstRead : Nat × List ℚ × UABState :=
  readFloat uabOnePacket (List.replicate 480 0)

/-- Claim C3's scenario with an arbitrary crossfade table: default config, one
480-sample packet at sequence 0, then the first 480-frame read. -/
def uabFirstReadOf (cf : Crossfade) : Nat × List ℚ × UABState :=
  readFloat (addSamples (mkUserAudioBuffer 1 {} cf) (List.replicate 480 100) 0 false)
    (List.replicate 480 0)

/-- A small config making `maxBufferSize = 2` samples (claim C4's
counterexample): `maxBufferMs · sampleRate / 1000 = 2 · 1000 / 1000`. -/
def uabTinyCfg : UABConfig :=
  { sampleRate := 1000, frameSize := 2, minBufferMs := 1, maxBufferMs := 2,
    targetBufferMs := 2 }

/-- Tiny buffer after two 2-sample packets: the second add evicts the whole
first packet (2 samples) and bumps `bufferOverruns` once per SAMPLE. -/
def uabTwoPackets : UABState :=
  addSamples (addSamples (mkUserAudioBuffer 1 uabTinyCfg cfTest) [1, 1] 0 false)
    [2, 2] 1 false

/-- Default-config buffer fed the sequence pair 0, 0 (claim C5's
counterexample: the duplicate differs from `last + increment` yet counts no
gap). -/
def uabDupSeq : UABState :=
  addSamples (addSamples (mkUserAudioBuffer 1 {} cfTest) [0] 0 false) [0] 0 false

/-- Default-config buffer fed sequences 0, 1, 2, 4 (the claim C5 instance). -/
def uabGapRun : UABState :=
  addSamples (addSamples (addSamples (addSamples (mkUserAudioBuffer 1 {} cfTest)
    [0] 0 false) [0] 1 false) [0] 2 false) [0] 4 false

/-- Default-config buffer after one packet (used to instantiate hypotheses
about states with `lastSequence ≥ 0`). -/
def uabSeqOne : UABState :=
  addSamples (mkUserAudioBuffer 1 {} cfTest) [0] 0 false

/-- A 480-frame mixer after `clear` and two adds of all-ones buffers
(claim C6's concrete instance). -/
def mixTwoOnes : Mixer :=
  mixerAdd (mixerAdd (mixerClear (mkMixer 480)) (List.replicate 480 1))
    (List.replicate 480 1)

/-- A 4-frame mixer holding `0.5` everywhere (claim C6's counterexample to
the rounding clause). -/
def mixHalf : Mixer :=
  mixerAdd (mixerClear (mkMixer 4)) (List.replicate 4 (1 / 2 : ℚ))

/-- Payload of the jitter-buffer packet with sequence 0. -/
def jbData0 : List Int := List.replicate 480 10

/-- Payload of the jitter-buffer packet with sequence 1. -/
def jbData1 : List Int := List.replicate 480 20

/-- Payload of the jitter-buffer packet with sequence 3. -/
def jbData3 : List Int := List.replicate 480 40

/-- Default-config jitter buffer fed sequences 0, 1, 3 (claim C7). -/
def jbFed : JBState := jbPut (jbPut (jbPut (mkJB {}) jbData0 0) jbData1 1) jbData3 3

/-- First `get` of 480 frames on `jbFed`. -/
def jbGet1 : Nat × List Int × JBState := jbGet jbFed 480

/-- Second `get`. -/
def jbGet2 : Nat × List Int × JBState := jbGet jbGet1.2.2 480

/-- Third `get`. -/
def jbGet3 : Nat × List Int × JBState := jbGet jbGet2.2.2 480

/-! ### Helper lemmas and claim theorems -/

lemma getD_set_ne {α : Type} (l : List α) (i j : Nat) (b d : α) (h : i ≠ j) :
    (l.set i b).getD j d = l.getD j d := by
  induction l generalizing i j with
  | nil => rfl
  | cons a t ih =>
    cases i with
    | zero =>
      cases j with
      | zero => exact absurd rfl h
      | succ j => rfl
    | succ i =>
      cases j with
      | zero => rfl
      | succ j => exact ih i j (fun hij => h (congrArg Nat.succ hij))

lemma getD_set_self {α : Type} (l : List α) (i : Nat) (b d : α) (h : i < l.length) :
    (l.set i b).getD i d = b := by
  induction l generalizing i with
  | nil => simp at h
  | cons a t ih =>
    cases i with
    | zero => rfl
    | succ i => exact ih i (Nat.lt_of_succ_lt_succ h)

lemma getD_replicate {α : Type} (n i : Nat) (a d : α) :
    (List.replicate n a).getD i d = if i < n then a else d := by
  induction n generalizing i with
  | zero => simp [List.getD_eq_default]
  | succ n ih =>
    cases i with
    | zero => simp [List.replicate_succ]
    | succ i => simpa [List.replicate_succ, Nat.succ_lt_succ_iff] using ih i

lemma getD_append_ge {α : Type} (pre l : List α) (i : Nat) (d : α)
    (h : pre.length ≤ i) : (pre ++ l).getD i d = l.getD (i - pre.length) d := by
  induction pre generalizing i with
  | nil => simp
  | cons a t ih =>
    cases i with
    | zero => simp at h
    | succ i =>
      have := ih i (Nat.le_of_succ_le_succ h)
      simpa [List.cons_append, Nat.succ_sub_succ] using this

lemma set_append_len {α : Type} (pre l : List α) (a v : α) :
    (pre ++ a :: l).set pre.length v = pre ++ v :: l := by
  induction pre with
  | nil => rfl
  | cons p ps ih =>
    show p :: (ps ++ a :: l).set ps.length v = p :: (ps ++ v :: l)
    rw [ih]

lemma writeRange_append (vals : List ℚ) : ∀ (pre l : List ℚ),
    vals.length ≤ l.length →
    writeRange (pre ++ l) pre.length vals = pre ++ vals ++ l.drop vals.length := by
  induction vals with
  | nil => intro pre l _; simp [writeRange]
  | cons v vs ih =>
    intro pre l h
    cases l with
    | nil => simp at h
    | cons a l2 =>
      show writeRange ((pre ++ a :: l2).set pre.length v) (pre.length + 1) vs = _
      rw [set_append_len]
      have h2 : vs.length ≤ l2.length := by simpa using h
      have step := ih (pre ++ [v]) l2 h2
      rw [List.length_append] at step
      simp only [List.append_assoc, List.singleton_append] at step
      simpa [List.length_singleton] using step

lemma writeRange_zero (vals l : List ℚ) (h : vals.length ≤ l.length) :
    writeRange l 0 vals = vals ++ l.drop vals.length := by
  simpa using writeRange_append vals [] l h

lemma length_mapIdxFrom {α : Type} (f : Nat → α → α) (i : Nat) (l : List α) :
    (mapIdxFrom f i l).length = l.length := by
  induction l generalizing i with
  | nil => rfl
  | cons a t ih => simp [mapIdxFrom, ih]

lemma getD_mapIdxFrom {α : Type} (f : Nat → α → α) (i j : Nat) (l : List α)
    (d : α) (h : j < l.length) :
    (mapIdxFrom f i l).getD j d = f (i + j) (l.getD j d) := by
  induction l generalizing i j with
  | nil => simp at h
  | cons a t ih =>
    cases j with
    | zero => simp [mapIdxFrom]
    | succ j =>
      have step := ih (i + 1) j (Nat.lt_of_succ_lt_succ h)
      have harith : i + 1 + j = i + (j + 1) := by omega
      show (mapIdxFrom f (i + 1) t).getD j d = f (i + (j + 1)) (t.getD j d)
      rw [step, harith]

lemma evictLoop_eq (buf : List ℚ) : ∀ (maxSize k : Nat),
    evictLoop buf maxSize k
      = (buf.drop (buf.length - maxSize), k + (buf.length - maxSize)) := by
  induction buf with
  | nil => intro maxSize k; simp [evictLoop]
  | cons a rest ih =>
    intro maxSize k
    rw [evictLoop]
    by_cases h : rest.length + 1 > maxSize
    · rw [if_pos h, ih maxSize (k + 1)]
      have h1 : (a :: rest).length - maxSize = (rest.length - maxSize) + 1 := by
        simp only [List.length_cons]; omega
      have h2 : k + 1 + (rest.length - maxSize) = k + ((rest.length - maxSize) + 1) := by
        omega
      rw [h1, List.drop_succ_cons, h2]
    · rw [if_neg h]
      have h1 : (a :: rest).length - maxSize = 0 := by
        simp only [List.length_cons]; omega
      rw [h1]
      simp

lemma pingLoop_avail (l : List Bool) : ∀ (s : PingState),
    s.udpAvailable = true → (pingLoop l s).udpAvailable = true := by
  induction l with
  | nil => intro s h; exact h
  | cons o rest ih =>
    intro s h
    rw [pingLoop]
    by_cases hr : s.retries < kMaxRetries
    · rw [if_pos hr]
      refine ih _ ?_
      cases o with
      | false => simpa [pingIter] using h
      | true => simp [pingIter]
    · rwa [if_neg hr]

lemma pingLoop_failure (l : List Bool) : ∀ (s : PingState),
    (pingLoop l s).failureCalls = s.failureCalls := by
  induction l with
  | nil => intro s; rfl
  | cons o rest ih =>
    intro s
    rw [pingLoop]
    by_cases hr : s.retries < kMaxRetries
    · rw [if_pos hr, ih]
      cases o with
      | false => rfl
      | true => rfl
    · rw [if_neg hr]

lemma pingLoop_success_stable (l : List Bool) : ∀ (s : PingState),
    (pingLoop l s).udpAvailable = false →
    (pingLoop l s).successCalls = s.successCalls := by
  induction l with
  | nil => intro s _; rfl
  | cons o rest ih =>
    intro s h
    rw [pingLoop] at h ⊢
    by_cases hr : s.retries < kMaxRetries
    · rw [if_pos hr] at h ⊢
      cases o with
      | false => exact ih _ h
      | true =>
        exfalso
        have : (pingLoop rest (pingIter s true)).udpAvailable = true :=
          pingLoop_avail rest _ (by simp [pingIter])
        rw [this] at h
        exact Bool.true_eq_false.mp h
    · rw [if_neg hr] at h ⊢

lemma length_applyFadeIn (cf : Crossfade) (l : List ℚ) (n : Nat) :
    (applyFadeIn cf l n).length = l.length := by
  unfold applyFadeIn
  exact length_mapIdxFrom _ _ _

lemma length_applyFadeOut (cf : Crossfade) (l : List ℚ) (n : Nat) :
    (applyFadeOut cf l n).length = l.length := by
  unfold applyFadeOut
  exact length_mapIdxFrom _ _ _

lemma getD_applyFadeIn_ge (cf : Crossfade) (l : List ℚ) (n i : Nat) (h : n ≤ i) :
    (applyFadeIn cf l n).getD i 0 = l.getD i 0 := by
  unfold applyFadeIn
  by_cases hi : i < l.length
  · rw [getD_mapIdxFrom _ _ _ _ _ hi, Nat.zero_add]
    have : ¬i < min n cf.fadeLength := by
      have := min_le_left n cf.fadeLength
      omega
    rw [if_neg this]
  · rw [List.getD_eq_default _ _ (by rw [length_mapIdxFrom]; omega),
      List.getD_eq_default _ _ (by omega)]

lemma getD_applyFadeOut_ge (cf : Crossfade) (l : List ℚ) (n i : Nat) (h : n ≤ i) :
    (applyFadeOut cf l n).getD i 0 = l.getD i 0 := by
  unfold applyFadeOut
  by_cases hi : i < l.length
  · rw [getD_mapIdxFrom _ _ _ _ _ hi, Nat.zero_add]
    have : ¬(n - min n cf.fadeLength ≤ i ∧ i < n) := by omega
    rw [if_neg this]
  · rw [List.getD_eq_default _ _ (by rw [length_mapIdxFrom]; omega),
      List.getD_eq_default _ _ (by omega)]

lemma outBase (b out : List ℚ) :
    (if min out.length b.length < out.length then
        writeRange (writeRange out 0 (b.take (min out.length b.length)))
          (min out.length b.length)
          (List.replicate (out.length - min out.length b.length) 0)
      else writeRange out 0 (b.take (min out.length b.length)))
    = b.take (min out.length b.length)
      ++ List.replicate (out.length - min out.length b.length) 0 := by
  have htakelen : (b.take (min out.length b.length)).length
      = min out.length b.length := by
    rw [List.length_take]
    omega
  have hw1 : writeRange out 0 (b.take (min out.length b.length))
      = b.take (min out.length b.length) ++ out.drop (min out.length b.length) := by
    rw [writeRange_zero _ _ (by omega), htakelen]
  by_cases hlt : min out.length b.length < out.length
  · rw [if_pos hlt, hw1]
    have hdroplen : (out.drop (min out.length b.length)).length
        = out.length - min out.length b.length := by
      rw [List.length_drop]
    have step := writeRange_append
      (List.replicate (out.length - min out.length b.length) (0 : ℚ))
      (b.take (min out.length b.length))
      (out.drop (min out.length b.length))
      (by rw [List.length_replicate, hdroplen])
    rw [htakelen] at step
    rw [List.length_replicate] at step
    rw [step]
    have hnil : (out.drop (min out.length b.length)).drop
        (out.length - min out.length b.length) = [] := by
      rw [← hdroplen]
      exact List.drop_length _
    rw [hnil, List.append_nil]
  · rw [if_neg hlt, hw1]
    have heq : min out.length b.length = out.length := by omega
    have h0 : out.length - min out.length b.length = 0 := by omega
    rw [h0, List.replicate_zero, List.append_nil, heq, List.drop_length,
      List.append_nil]

lemma readFloat_normal (s : UABState) (out : List ℚ)
    (h1 : ¬(s.playbackStarted = false ∧ s.buffer.length < s.minBufferSize))
    (hbe : ¬s.buffer.isEmpty = true) :
    (readFloat s out).1 = min out.length s.buffer.length
  ∧ (readFloat s out).2.1 = readNormalOut s out.length
  ∧ (readFloat s out).2.2.buffer
      = s.buffer.drop (min out.length s.buffer.length)
  ∧ (readFloat s out).2.2.maxBufferSize = s.maxBufferSize := by
  unfold readFloat readNormalOut
  rw [if_neg h1]
  simp only []
  by_cases hps : s.playbackStarted = true
  · rw [if_pos hps, if_neg hbe]
    refine ⟨rfl, ?_, rfl, ?_⟩
    · have hor : ∀ (hfi : ¬s.needsFadeIn = true),
          ¬(s.needsFadeIn = true ∨ s.playbackStarted = false) := by
        intro hfi hcase
        rcases hcase with h | h
        · exact hfi h
        · rw [hps] at h
          exact Bool.true_eq_false.mp h
      by_cases hfo : s.needsFadeOut = true
          ∧ (s.buffer.drop (min out.length s.buffer.length)).isEmpty = true
      · by_cases hfi : s.needsFadeIn = true
        · have hfic : s.needsFadeIn = true ∨ s.playbackStarted = false :=
            Or.inl hfi
          simp only [if_pos hfo, if_pos hfi, if_pos hfic]
          rw [outBase]
        · have hfic := hor hfi
          simp only [if_pos hfo, if_neg hfi, if_neg hfic]
          rw [outBase]
      · by_cases hfi : s.needsFadeIn = true
        · have hfic : s.needsFadeIn = true ∨ s.playbackStarted = false :=
            Or.inl hfi
          simp only [if_neg hfo, if_pos hfi, if_pos hfic]
          rw [outBase]
        · have hfic := hor hfi
          simp only [if_neg hfo, if_neg hfi, if_neg hfic]
          rw [outBase]
    · split_ifs <;> rfl
  · have hps' : s.playbackStarted = false := by
      cases h : s.playbackStarted
      · rfl
      · exact absurd h hps
    rw [if_neg hps]
    have e1 : ({ s with playbackStarted := true, needsFadeIn := true }
        : UABState).buffer = s.buffer := rfl
    have e2 : ({ s with playbackStarted := true, needsFadeIn := true }
        : UABState).needsFadeIn = true := rfl
    have e3 : ({ s with playbackStarted := true, needsFadeIn := true }
        : UABState).needsFadeOut = s.needsFadeOut := rfl
    have e4 : ({ s with playbackStarted := true, needsFadeIn := true }
        : UABState).crossfade = s.crossfade := rfl
    simp only [e1, e2, e3, e4]
    rw [if_neg hbe]
    refine ⟨rfl, ?_, rfl, ?_⟩
    · have htt : (true : Bool) = true := rfl
      have hfic : s.needsFadeIn = true ∨ s.playbackStarted = false :=
        Or.inr hps'
      by_cases hfo : s.needsFadeOut = true
          ∧ (s.buffer.drop (min out.length s.buffer.length)).isEmpty = true
      · simp only [if_pos hfo, if_pos htt, if_pos hfic]
        rw [outBase]
        simp
      · simp only [if_neg hfo, if_pos htt, if_pos hfic]
        rw [outBase]
        simp
    · split_ifs <;> rfl

lemma length_readNormalOut (s : UABState) (frames : Nat) :
    (readNormalOut s frames).length = frames := by
  unfold readNormalOut
  have hbase : (s.buffer.take (min frames s.buffer.length)
      ++ List.replicate (frames - min frames s.buffer.length) (0 : ℚ)).length
      = frames := by
    rw [List.length_append, List.length_take, List.length_replicate]
    omega
  simp only [apply_ite List.length, length_applyFadeOut, length_applyFadeIn,
    hbase, ite_self]

lemma getD_readNormalOut_ge (s : UABState) (frames i : Nat)
    (h : min frames s.buffer.length ≤ i) :
    (readNormalOut s frames).getD i 0 = 0 := by
  unfold readNormalOut
  have hbase : (s.buffer.take (min frames s.buffer.length)
      ++ List.replicate (frames - min frames s.buffer.length) (0 : ℚ)).getD i 0
      = 0 := by
    rw [getD_append_ge _ _ _ _ (by rw [List.length_take]; omega),
      List.length_take, getD_replicate]
    split_ifs <;> rfl
  simp only [apply_ite (fun (l : List ℚ) => List.getD l i 0),
    getD_applyFadeOut_ge _ _ _ _ h, getD_applyFadeIn_ge _ _ _ _ h, hbase,
    ite_self]

lemma readFloat_char (s : UABState) (out : List ℚ) :
    ((readFloat s out).2.2.buffer = s.buffer
      ∨ (readFloat s out).2.2.buffer
          = s.buffer.drop (min out.length s.buffer.length))
  ∧ (readFloat s out).2.2.maxBufferSize = s.maxBufferSize
  ∧ (readFloat s out).2.1.length = out.length
  ∧ (∀ i, (readFloat s out).1 ≤ i → (readFloat s out).2.1.getD i 0 = 0)
  ∧ ∀ out2, out2.length = out.length →
      (readFloat s out2).2.1 = (readFloat s out).2.1 := by
  by_cases h1 : s.playbackStarted = false ∧ s.buffer.length < s.minBufferSize
  · have hr : ∀ (o : List ℚ),
        readFloat s o = (0, List.replicate o.length 0, s) := by
      intro o
      unfold readFloat
      rw [if_pos h1]
    rw [hr out]
    refine ⟨Or.inl rfl, rfl, List.length_replicate _ _, ?_, ?_⟩
    · intro i _
      rw [getD_replicate]
      split_ifs <;> rfl
    · intro out2 h2
      rw [hr out2]
      simp [h2]
  · by_cases hbe : s.buffer.isEmpty = true
    · have hr : ∀ (o : List ℚ), ∃ st : UABState,
          readFloat s o = (0, List.replicate o.length 0, st)
          ∧ st.buffer = s.buffer ∧ st.maxBufferSize = s.maxBufferSize := by
        intro o
        unfold readFloat
        rw [if_neg h1]
        simp only []
        by_cases hps : s.playbackStarted = true
        · rw [if_pos hps, if_pos hbe]
          exact ⟨_, rfl, rfl, rfl⟩
        · rw [if_neg hps]
          have e1 : ({ s with playbackStarted := true, needsFadeIn := true }
              : UABState).buffer = s.buffer := rfl
          simp only [e1]
          rw [if_pos hbe]
          exact ⟨_, rfl, rfl, rfl⟩
      obtain ⟨st, hro, hb, hm⟩ := hr out
      rw [hro]
      refine ⟨Or.inl hb, hm, List.length_replicate _ _, ?_, ?_⟩
      · intro i _
        rw [getD_replicate]
        split_ifs <;> rfl
      · intro out2 h2
        obtain ⟨st2, hro2, _, _⟩ := hr out2
        rw [hro2]
        simp [h2]
    · obtain ⟨hc, ho, hb, hm⟩ := readFloat_normal s out h1 hbe
      refine ⟨Or.inr hb, hm, ?_, ?_, ?_⟩
      · rw [ho, length_readNormalOut]
      · intro i hi
        rw [ho]
        rw [hc] at hi
        exact getD_readNormalOut_ge s out.length i hi
      · intro out2 h2
        obtain ⟨_, ho2, _, _⟩ := readFloat_normal s out2 h1 hbe
        rw [ho, ho2, h2]

/-- C1: the OCB round trip does not hold on this code.  First conjunct: for
EVERY oracle, state and input, `decrypt` leaves the caller's output buffer
exactly as it was — the source hands `dst` to `ocbEncrypt` as the plaintext
INPUT and writes the recomputed ciphertext over the const `src` buffer, so no
store to `dst` exists on any path.  Second conjunct: each successful `encrypt`
advances `encryptNonce_` by exactly 1 (mod 2^32) — that half of the claim is
right.  Remaining conjuncts evaluate the failing round trip: two fresh states
sharing the oracle with mirrored nonces, plaintext `[0x01]`, output buffer
initialized to `[0x00]`: the opened output stays `[0x00] ≠ [0x01]`, and the
tag check fails as well. -/
theorem cryptoOpenNeverWritesDst :
    (∀ (s : CryptState) (dst src : List Nat), (decrypt s dst src).2.1 = dst)
  ∧ (∀ (s : CryptState) (src : List Nat),
      (encrypt s src).elim True
        (fun r => r.2.encryptNonce = (s.encryptNonce + 1) % 2 ^ 32))
  ∧ cstateAAfterOne.encryptNonce = cstateA.encryptNonce + 1
  ∧ packetOne.length = 1 + 4
  ∧ (decrypt cstateB [0] packetOne).1 = false
  ∧ (decrypt cstateB [0] packetOne).2.1 = [0]
  ∧ ([0] : List Nat) ≠ [1] := by
  refine ⟨?_, ?_, by decide, by decide, by decide, by decide, by decide⟩
  · intro s dst src
    unfold decrypt
    split
    · rfl
    · split <;> rfl
  · intro s src
    unfold encrypt
    split
    · simp
    · simp

/-- C2: flipping any of the 3 tag bytes (indices 1..3) of a packet that
`decrypt` accepts makes `decrypt` reject it, set `needResync_`, leave the
output buffer alone and leave `decryptNonce_` unchanged. -/
theorem cryptoTagFlipFails (s : CryptState) (dst src : List Nat) (i b : Nat)
    (hok : (decrypt s dst src).1 = true)
    (hi : i = 1 ∨ i = 2 ∨ i = 3)
    (hb : b ≠ src.getD i 0) :
    (decrypt s dst (src.set i b)).1 = false
  ∧ (decrypt s dst (src.set i b)).2.1 = dst
  ∧ (decrypt s dst (src.set i b)).2.2.needResync = true
  ∧ (decrypt s dst (src.set i b)).2.2.decryptNonce = s.decryptNonce := by
  by_cases hg : s.initDone = false ∨ src.length < 4
  · rw [decrypt, if_pos hg] at hok
    exact absurd hok (by simp)
  · have hinit : ¬s.initDone = false := fun h => hg (Or.inl h)
    have hlen : ¬src.length < 4 := fun h => hg (Or.inr h)
    have hlen4 : 4 ≤ src.length := Nat.le_of_not_lt hlen
    have hi0 : i ≠ 0 := by rcases hi with h | h | h <;> omega
    have hsetlen : (src.set i b).length = src.length := List.length_set src i b
    have hg' : ¬(s.initDone = false ∨ (src.set i b).length < 4) := by
      rw [hsetlen]; exact hg
    have htageq : decExpectedTag s dst (src.set i b) = decExpectedTag s dst src := by
      unfold decExpectedTag
      rw [hsetlen, getD_set_ne src i 0 b 0 hi0]
    rw [decrypt, if_neg hg] at hok
    rcases htm : tagMatches (decExpectedTag s dst src) src with _ | _
    · rw [htm] at hok
      simp at hok
    · rw [tagMatches, Bool.and_eq_true, Bool.and_eq_true, beq_iff_eq, beq_iff_eq,
        beq_iff_eq] at htm
      have hflip : tagMatches (decExpectedTag s dst src) (src.set i b) = false := by
        rcases hi with h | h | h <;> subst h
        · have e1 : (src.set 1 b).getD 1 0 = b := getD_set_self src 1 b 0 (by omega)
          have hne : (decExpectedTag s dst src).getD 0 0 ≠ b := by
            rw [htm.1.1]; exact fun h => hb h.symm
          rw [tagMatches, e1]
          simp only [Bool.and_eq_false_iff, beq_eq_false_iff_ne, ne_eq]
          exact Or.inl (Or.inl hne)
        · have e2 : (src.set 2 b).getD 2 0 = b := getD_set_self src 2 b 0 (by omega)
          have hne : (decExpectedTag s dst src).getD 1 0 ≠ b := by
            rw [htm.1.2]; exact fun h => hb h.symm
          rw [tagMatches, e2]
          simp only [Bool.and_eq_false_iff, beq_eq_false_iff_ne, ne_eq]
          exact Or.inl (Or.inr hne)
        · have e3 : (src.set 3 b).getD 3 0 = b := getD_set_self src 3 b 0 (by omega)
          have hne : (decExpectedTag s dst src).getD 2 0 ≠ b := by
            rw [htm.2]; exact fun h => hb h.symm
          rw [tagMatches, e3]
          simp only [Bool.and_eq_false_iff, beq_eq_false_iff_ne, ne_eq]
          exact Or.inr hne
      rw [decrypt, if_neg hg', htageq, hflip]
      exact ⟨rfl, rfl, rfl, rfl⟩

/-- Witness for `cryptoTagFlipFails`: the concrete 0-payload packet sealed by
`cstateA` is accepted by `cstateB`; flipping tag byte 1 to 2 makes the open
fail with `needResync` set and the counter untouched. -/
theorem cryptoTagFlipFails_witness :
    (decrypt cstateB [] (packetNil.set 1 2)).1 = false
  ∧ (decrypt cstateB [] (packetNil.set 1 2)).2.2.needResync = true
  ∧ (decrypt cstateB [] (packetNil.set 1 2)).2.2.decryptNonce = cstateB.decryptNonce :=
  let h := cryptoTagFlipFails cstateB [] packetNil 1 2 (by decide) (Or.inl rfl) (by decide)
  ⟨h.1, h.2.2.1, h.2.2.2⟩

/-- C3 as stated fails: with the default config, one 480-sample packet leaves
the buffer at 480 < `minBufferSize = 2880`, so the first read takes the
not-ready path — it returns 0 frames (not `F = 480`) and applies no fade-in
(`fadeIns` stays 0, `needsFadeIn` stays set). -/
theorem fadeInFirstReadCounter :
    uabFirstRead.1 = 0
  ∧ ¬uabFirstRead.1 = 480
  ∧ uabFirstRead.2.2.stats.fadeIns = 0
  ∧ uabFirstRead.2.2.needsFadeIn = true := by
  refine ⟨by decide, by decide, by decide, by decide⟩

/-- C3 amended: after construction and a single `add_samples(F, seq = 0)` the
first `read_float(F)` writes `F` zeros and returns 0 frames; the fade-in is
deferred until the buffer has reached `min_buffer_samples` (2880, i.e. 6
packets), so none is applied here; the all-zero output envelope is trivially
monotonically non-decreasing.  Holds for every crossfade table (so also for
the source's sine tables, which this path never consults). -/
theorem fadeInFirstReadAmended (cf : Crossfade) :
    (uabFirstReadOf cf).1 = 0
  ∧ (uabFirstReadOf cf).2.1 = List.replicate 480 0
  ∧ (uabFirstReadOf cf).2.2.stats.fadeIns = 0
  ∧ (uabFirstReadOf cf).2.2.needsFadeIn = true
  ∧ ∀ i j : Nat, i ≤ j →
      (uabFirstReadOf cf).2.1.getD i 0 ≤ (uabFirstReadOf cf).2.1.getD j 0 := by
  refine ⟨rfl, rfl, rfl, rfl, ?_⟩
  intro i j _
  have h : (uabFirstReadOf cf).2.1 = List.replicate 480 0 := rfl
  rw [h, getD_replicate, getD_replicate]
  split_ifs <;> exact le_refl 0

/-- Witness for `fadeInFirstReadAmended` at the concrete table `cfTest` and
positions 0 ≤ 1. -/
theorem fadeInFirstReadAmended_witness :
    (uabFirstReadOf cfTest).2.1.getD 0 0 ≤ (uabFirstReadOf cfTest).2.1.getD 1 0 :=
  (fadeInFirstReadAmended cfTest).2.2.2.2 0 1 (by decide)

/-- C4's per-packet overrun accounting fails: with `maxBufferSize = 2`, adding
the 2-sample packet `[1, 1]` and then the 2-sample packet `[2, 2]` evicts
exactly one whole packet but bumps `bufferOverruns` to 2 — the loop counts
evicted SAMPLES, not packets. -/
theorem overrunsPerSampleCounter :
    uabTwoPackets.stats.bufferOverruns = 2
  ∧ ¬uabTwoPackets.stats.bufferOverruns = 1
  ∧ uabTwoPackets.buffer.length = 2
  ∧ uabTwoPackets.maxBufferSize = 2 := by
  refine ⟨by decide, by decide, by decide, by decide⟩

/-- C4 amended: after every `addSamples` the buffer holds
`min (old + incoming) maxBufferSize` samples — in particular at most
`maxBufferSize` — and `bufferOverruns` grows by the number of evicted
SAMPLES (`old + incoming - maxBufferSize`, truncated); `readFloat` never
grows the buffer and neither call changes `maxBufferSize`, so the bound is
invariant. -/
theorem bufferBoundAmended :
    (∀ (s : UABState) (samples : List Int) (seq : Int) (plc : Bool),
        (addSamples s samples seq plc).buffer.length
          = min (s.buffer.length + samples.length) s.maxBufferSize
      ∧ (addSamples s samples seq plc).stats.bufferOverruns
          = s.stats.bufferOverruns + (s.buffer.length + samples.length - s.maxBufferSize)
      ∧ (addSamples s samples seq plc).buffer.length ≤ s.maxBufferSize
      ∧ (addSamples s samples seq plc).maxBufferSize = s.maxBufferSize)
  ∧ ∀ (s : UABState) (out : List ℚ),
      (readFloat s out).2.2.buffer.length ≤ s.buffer.length
    ∧ (readFloat s out).2.2.maxBufferSize = s.maxBufferSize := by
  constructor
  · intro s samples seq plc
    have hlen : (s.buffer ++ samples.map (fun (v : Int) => (v : ℚ) / 32768)).length
        = s.buffer.length + samples.length := by
      simp
    refine ⟨?_, ?_, ?_, rfl⟩
    · show (evictLoop (s.buffer ++ samples.map (fun (v : Int) => (v : ℚ) / 32768))
          s.maxBufferSize s.stats.bufferOverruns).1.length = _
      rw [evictLoop_eq, List.length_drop, hlen]
      omega
    · show (evictLoop (s.buffer ++ samples.map (fun (v : Int) => (v : ℚ) / 32768))
          s.maxBufferSize s.stats.bufferOverruns).2 = _
      rw [evictLoop_eq, hlen]
    · show (evictLoop (s.buffer ++ samples.map (fun (v : Int) => (v : ℚ) / 32768))
          s.maxBufferSize s.stats.bufferOverruns).1.length ≤ _
      rw [evictLoop_eq, List.length_drop, hlen]
      omega
  · intro s out
    obtain ⟨hb, hm, _, _, _⟩ := readFloat_char s out
    refine ⟨?_, hm⟩
    rcases hb with hb | hb
    · rw [hb]
    · rw [hb, List.length_drop]
      exact Nat.sub_le _ _

/-- C5's unconditional gap counting fails: feeding sequence 0 twice gives a
second packet with `seq = 0 ≠ last + increment = 1`, yet `sequenceGaps` stays
0 because the source only counts gaps with `seq - last > increment`. -/
theorem seqGapCounter :
    uabDupSeq.stats.sequenceGaps = 0
  ∧ ¬uabDupSeq.stats.sequenceGaps = 1
  ∧ uabSeqOne.lastSequence + uabSeqOne.sequenceIncrement = 1 := by
  refine ⟨by decide, by decide, by decide⟩

/-- C5 amended: for every packet after the first, `sequenceGaps` is bumped
exactly when `seq - last_seq > seq_increment` (not on every mismatch), the
increment is adopted when the packet mismatches and the gap lies strictly
between 0 and 100, and `last_seq` becomes the new sequence; the concrete run
0, 1, 2, 4 still yields `sequenceGaps = 1` and `last_seq = 4`. -/
theorem seqGapAmended :
    (∀ (s : UABState) (samples : List Int) (seq : Int) (plc : Bool),
      0 ≤ s.lastSequence →
        (addSamples s samples seq plc).stats.sequenceGaps
          = s.stats.sequenceGaps
            + (if s.sequenceIncrement < seq - s.lastSequence then 1 else 0)
      ∧ (addSamples s samples seq plc).sequenceIncrement
          = (if seq ≠ s.lastSequence + s.sequenceIncrement
                ∧ 0 < seq - s.lastSequence ∧ seq - s.lastSequence < 100
             then seq - s.lastSequence else s.sequenceIncrement)
      ∧ (addSamples s samples seq plc).lastSequence = seq)
  ∧ uabGapRun.stats.sequenceGaps = 1
  ∧ uabGapRun.lastSequence = 4
  ∧ uabGapRun.stats.lastSequence = 4 := by
  refine ⟨?_, by decide, by decide, by decide⟩
  intro s samples seq plc h
  have hneg : ¬s.lastSequence < 0 := not_lt.mpr h
  have hg1 : (detectSequenceGap s seq).1
      = s.stats.sequenceGaps
        + (if s.sequenceIncrement < seq - s.lastSequence then 1 else 0) := by
    unfold detectSequenceGap
    rw [if_neg hneg]
    by_cases hne : seq ≠ s.lastSequence + s.sequenceIncrement
    · rw [if_pos hne]
      show (if seq - s.lastSequence > s.sequenceIncrement then
          s.stats.sequenceGaps + 1 else s.stats.sequenceGaps) = _
      split_ifs <;> omega
    · rw [if_neg hne]
      show s.stats.sequenceGaps = _
      have heq : seq = s.lastSequence + s.sequenceIncrement := not_not.mp hne
      rw [if_neg (by omega)]
      omega
  have hg2 : (detectSequenceGap s seq).2
      = (if seq ≠ s.lastSequence + s.sequenceIncrement
            ∧ 0 < seq - s.lastSequence ∧ seq - s.lastSequence < 100
         then seq - s.lastSequence else s.sequenceIncrement) := by
    unfold detectSequenceGap
    rw [if_neg hneg]
    by_cases hne : seq ≠ s.lastSequence + s.sequenceIncrement
    · rw [if_pos hne]
      show (if 0 < seq - s.lastSequence ∧ seq - s.lastSequence < 100 then
          seq - s.lastSequence else s.sequenceIncrement) = _
      split_ifs <;> first | rfl | tauto
    · rw [if_neg hne]
      show s.sequenceIncrement = _
      rw [if_neg (fun hc => hne hc.1)]
  have p1 : (addSamples s samples seq plc).stats.sequenceGaps
      = (detectSequenceGap s seq).1 := rfl
  have p2 : (addSamples s samples seq plc).sequenceIncrement
      = (detectSequenceGap s seq).2 := rfl
  exact ⟨by rw [p1, hg1], by rw [p2, hg2], rfl⟩

/-- Witness for `seqGapAmended`: applying the general clause to the concrete
one-packet state (last sequence 0, increment 1) and incoming sequence 5. -/
theorem seqGapAmended_witness :
    (addSamples uabSeqOne [] 5 false).lastSequence = 5 :=
  ((seqGapAmended).1 uabSeqOne [] 5 false (by decide)).2.2

/-- C6's rounding clause fails: an accumulated float of `0.5` is clamped (a
no-op) and then CAST to int16, truncating `0.5 · 32767 = 16383.5` to 16383,
whereas the claimed `round` gives 16384. -/
theorem mixerRoundCounter :
    getMixed mixHalf (List.replicate 4 0) = List.replicate 4 16383
  ∧ specRound ((1 / 2 : ℚ) * 32767) = 16384
  ∧ ¬(16383 : Int) = 16384 := by
  refine ⟨by decide, by decide, by decide⟩

/-- C6 amended: `getMixed` clamps every accumulated float to `[-1, 1]` and
converts it to int16 by TRUNCATION toward zero of `x · 32767` (the C cast),
not by rounding; in particular, after `clear` and two adds of all-`+1.0`
buffers every output sample is 32767 (no overflow). -/
theorem mixerClampTruncAmended :
    (∀ (m : Mixer) (out : List Int) (i : Nat),
      i < min out.length m.frameSize →
        (getMixed m out).getD i 0 = i16OfSample (m.mixBuffer.getD i 0))
  ∧ getMixed mixTwoOnes (List.replicate 480 0) = List.replicate 480 32767 := by
  constructor
  · intro m out i h
    have hlt : i < out.length := lt_of_lt_of_le h (min_le_left _ _)
    unfold getMixed
    rw [getD_mapIdxFrom _ _ _ _ _ hlt]
    rw [Nat.zero_add, if_pos h]
  · decide

/-- Witness for `mixerClampTruncAmended`: the general clause applied to a
fresh 1-frame mixer and a 1-cell output buffer at index 0. -/
theorem mixerClampTruncAmended_witness :
    (getMixed (mkMixer 1) [5]).getD 0 0 = i16OfSample ((mkMixer 1).mixBuffer.getD 0 0) :=
  (mixerClampTruncAmended).1 (mkMixer 1) [5] 0 (by decide)

/-- C7 as stated fails: with the default config the min-delay check requires
`20 · 48000 / (480 · 1000) = 2` buffered packets, so after playing 0 and 1
the third `get` finds a single packet (sequence 3), withholds it, returns
silence, and counts no loss — `packetsLost = 0 ≠ 1` and packet 3 is not
played by the third `get`. -/
theorem jitterLossCounter :
    jbGet3.2.2.packetsLost = 0
  ∧ ¬jbGet3.2.2.packetsLost = 1
  ∧ jbGet3.1 = 0
  ∧ ¬jbGet3.2.1 = jbData3 := by
  refine ⟨by decide, by decide, by decide, by decide⟩

/-- C7 amended: feeding sequences 0, 1, 3 into a default-config jitter buffer
and draining three times plays packets 0 and 1 in order, then the min-delay
check (2 packets at 20 ms) withholds packet 3: the third `get` outputs
silence and returns 0, and `packetsLost` stays 0. -/
theorem jitterScenarioAmended :
    jbGet1.1 = 480 ∧ jbGet1.2.1 = jbData0
  ∧ jbGet2.1 = 480 ∧ jbGet2.2.1 = jbData1
  ∧ jbGet3.1 = 0 ∧ jbGet3.2.1 = List.replicate 480 0
  ∧ jbGet3.2.2.packetsLost = 0
  ∧ jbGet3.2.2.packetsReceived = 3 := by
  refine ⟨by decide, by decide, by decide, by decide, by decide, by decide,
    by decide, by decide⟩

/-- C8 as stated fails: a `connect` whose `SSL_CTX_new` fails (and likewise a
failing certificate load or TLS handshake) returns false but leaves the
connection state `Failed`, not `Disconnected`. -/
theorem connectFailCounter :
    (connectClient ⟨false, true, true, true⟩ ⟨[]⟩ ConnState.Disconnected)
      = (false, ConnState.Failed)
  ∧ (connectClient ⟨true, false, true, true⟩ ⟨[1]⟩ ConnState.Disconnected)
      = (false, ConnState.Failed)
  ∧ (connectClient ⟨true, true, true, false⟩ ⟨[]⟩ ConnState.Disconnected)
      = (false, ConnState.Failed)
  ∧ ConnState.Failed ≠ ConnState.Disconnected := by
  refine ⟨by decide, by decide, by decide, by decide⟩

/-- C8 amended: whenever `initSSL` fails (context creation or client
certificate load) or the TLS handshake fails, `connect` returns false
synchronously and the connection state afterwards is `Failed`. -/
theorem connectFailAmended (env : SslEnv) (cfg : MCConfig)
    (h : initSSL env cfg = false
      ∨ (env.socketOk = true ∧ env.handshakeOk = false)) :
    connectClient env cfg ConnState.Disconnected = (false, ConnState.Failed) := by
  unfold connectClient
  rw [if_neg (by simp)]
  rcases h with h | ⟨h1, h2⟩
  · rw [if_pos h]
  · by_cases hs : initSSL env cfg = false
    · rw [if_pos hs]
    · rw [if_neg hs, if_neg (by
        intro hcc
        rw [h1] at hcc
        exact Bool.noConfusion hcc)]
      rw [if_pos h2]

/-- Witness for `connectFailAmended`: concrete failing context creation. -/
theorem connectFailAmended_witness :
    connectClient ⟨false, true, true, true⟩ ⟨[]⟩ ConnState.Disconnected
      = (false, ConnState.Failed) :=
  connectFailAmended _ _ (Or.inl (by decide))

/-- C9: within one run of the UDP ping loop, `udpAvailable_` never goes back
to false once set (the loop only ever assigns `true`); the failure callback
fires at most once per run, and only when no ping of the run succeeded. -/
theorem udpPingMonotoneOnce (outcomes : List Bool) :
    (∀ s : PingState, s.udpAvailable = true →
        (pingLoop outcomes s).udpAvailable = true)
  ∧ (pingRun outcomes).failureCalls ≤ 1
  ∧ ((pingRun outcomes).failureCalls = 1 →
        (pingRun outcomes).successCalls = 0) := by
  refine ⟨fun s h => pingLoop_avail outcomes s h, ?_, ?_⟩
  · unfold pingRun
    simp only []
    split_ifs
    · rw [pingLoop_failure]
    · rw [pingLoop_failure]
      exact Nat.zero_le 1
  · intro h
    unfold pingRun at h ⊢
    simp only [] at h ⊢
    split_ifs at h ⊢ with hc
    · exact pingLoop_success_stable outcomes _ hc.2
    · rw [pingLoop_failure] at h
      exact absurd h (by decide)

/-- Witness for `udpPingMonotoneOnce`: three straight timeouts fire the
failure callback with no success counted, and a run entered with
`udpAvailable` already set keeps it set. -/
theorem udpPingMonotoneOnce_witness :
    (pingRun [false, false, false]).successCalls = 0
  ∧ (pingLoop [false] ⟨0, true, 0, 0⟩).udpAvailable = true :=
  ⟨(udpPingMonotoneOnce [false, false, false]).2.2 (by decide),
   (udpPingMonotoneOnce [false]).1 ⟨0, true, 0, 0⟩ rfl⟩

/-- C10: every `readFloat` call, in every buffer state, writes all requested
entries of the caller's output buffer: the result has exactly the requested
length, every entry at or beyond the returned count is zero (the silence
branches zero-fill everything; the normal branch zero-pads past the count),
and the final contents are independent of whatever the caller's buffer held
before the call — so no unwritten cell is ever exposed. -/
theorem readFloatWritesAll (s : UABState) (out : List ℚ) :
    (readFloat s out).2.1.length = out.length
  ∧ (∀ i, (readFloat s out).1 ≤ i → (readFloat s out).2.1.getD i 0 = 0)
  ∧ ∀ out2, out2.length = out.length →
      (readFloat s out2).2.1 = (readFloat s out).2.1 :=
  ⟨(readFloat_char s out).2.2.1, (readFloat_char s out).2.2.2.1,
   (readFloat_char s out).2.2.2.2⟩

/-- Witness for `readFloatWritesAll`: on the concrete one-packet state, the
zero-fill fact at index 3 and the initial-contents independence at a buffer
holding ones instead of zeros. -/
theorem readFloatWritesAll_witness :
    uabFirstRead.2.1.getD 3 0 = 0
  ∧ (readFloat uabOnePacket (List.replicate 480 1)).2.1 = uabFirstRead.2.1 :=
  ⟨(readFloatWritesAll uabOnePacket (List.replicate 480 0)).2.1 3 (by decide),
   (readFloatWritesAll uabOnePacket (List.replicate 480 0)).2.2
     (List.replicate 480 1) (by decide)⟩

end Sayses

